import Mathlib

/-!
# Verification of the demisto-sdk file-validation orchestration

This development is a shallow embedding of
`demisto_sdk/validation/file_validator.py` (class `FilesValidator`).

Modelling conventions:

* Pure helper functions of the Python standard library that the module uses
  (`str.split`, `os.path.splitext`, `os.path.dirname`) are translated into
  executable Lean functions with the same semantics.
* The regex constants (`CHECKED_TYPES_REGEXES`, `CODE_FILES_REGEX`,
  `OLD_YML_FORMAT_FILE`, `SCHEMA_REGEX`, `INTEGRATION_REGEX`, ...) and the
  collaborator validators (`StructureValidator`, `ImageValidator`, ...) live in
  modules that are not part of the analysed sources; they are modelled as
  opaque boolean oracles collected in an `Env` structure.  Every theorem is
  stated for all environments, or for environments satisfying explicitly named
  assumptions about those constants.
* `git` invocations (`run_command`) become a pure `String → String` oracle in
  the environment: the function from command text to diff text.
* Python sets become `Finset`s; the heterogeneous set of modified files
  (strings and `(old, new)` tuples) becomes `Finset PathEntry`.
* A Python run that raises an uncaught exception (`IndexError` on a malformed
  diff line) is modelled by `Option`: `none` means the call raised.
-/

set_option autoImplicit false

/-- The characters of `l` start with the characters of `pre`. -/
def leadsWith : List Char → List Char → Bool
  | [], _ => true
  | _ :: _, [] => false
  | a :: as, b :: bs => a = b && leadsWith as bs

/-- Python `s.startswith(pre)` (structurally recursive, so that concrete runs
reduce inside the kernel). -/
def strStartsWith (s pre : String) : Bool :=
  leadsWith pre.data s.data

/-- Python `s.endswith(suf)`. -/
def strEndsWith (s suf : String) : Bool :=
  leadsWith suf.data.reverse s.data.reverse

/-- ASCII `char.lower()`. -/
def charLower (c : Char) : Char :=
  if 65 ≤ c.toNat ∧ c.toNat ≤ 90 then Char.ofNat (c.toNat + 32) else c

/-- Python `s.lower()` (the statuses and paths compared are ASCII). -/
def strToLower (s : String) : String :=
  ⟨s.data.map charLower⟩

/-- Worker for `pySplit`: `cur` holds the reversed chars of the fragment
being read. -/
def pySplitAux : List Char → List Char → List String
  | [], cur => if cur.isEmpty then [] else [String.mk cur.reverse]
  | c :: rest, cur =>
    if c.isWhitespace then
      if cur.isEmpty then pySplitAux rest []
      else String.mk cur.reverse :: pySplitAux rest []
    else pySplitAux rest (c :: cur)

/-- Python `str.split()` with no separator: split on runs of whitespace and drop
empty fragments. -/
def pySplit (s : String) : List String :=
  pySplitAux s.data []

/-- The newline character. -/
def nlChar : Char := Char.ofNat 10

/-- Worker for `splitLines`. -/
def splitLinesAux : List Char → List Char → List String
  | [], cur => [String.mk cur.reverse]
  | c :: rest, cur =>
    if c = nlChar then String.mk cur.reverse :: splitLinesAux rest []
    else splitLinesAux rest (c :: cur)

/-- Python `files_string.split('\n')`. -/
def splitLines (s : String) : List String :=
  splitLinesAux s.data []

/-- Index of the last occurrence of `c` in `l`, if any. -/
def lastIdx (c : Char) : List Char → Option Nat
  | [] => none
  | a :: rest =>
    match lastIdx c rest with
    | some i => some (i + 1)
    | none => if a = c then some 0 else none

/-- Python `os.path.splitext(p)[0]`: drop the extension of the basename of `p`.
The extension starts at the last dot of the basename, provided some non-dot
character of the basename precedes it (so `.bashrc` has no extension). -/
def splitextRoot (p : String) : String :=
  let cs := p.data
  match lastIdx '.' cs with
  | none => p
  | some d =>
    let s := match lastIdx '/' cs with
      | none => 0
      | some i => i + 1
    if d ≥ s ∧ ((cs.drop s).take (d - s)).any (fun c => c ≠ '.') then
      ⟨cs.take d⟩
    else p

/-- Python `os.path.dirname(p)`: everything before the last `/`, or `""`. -/
def dirname (p : String) : String :=
  match lastIdx '/' p.data with
  | none => ""
  | some i => ⟨p.data.take i⟩

/-- Python `needle` occurs as a contiguous sublist of the second argument. -/
def containsSub (needle : List Char) : List Char → Bool
  | [] => leadsWith needle []
  | c :: rest => leadsWith needle (c :: rest) || containsSub needle rest

/-- Python `'master' in tag` (substring containment of the literal). -/
def containsMaster (tag : String) : Bool :=
  containsSub "master".data tag.data

/-- A Python value as far as the validator inspects YAML documents: strings
and string-keyed mappings.  Only the shapes consulted by
`_is_py_script_or_integration` and `validate_no_old_format` are relevant. -/
inductive PyVal where
  | vstr (s : String)
  | vdict (m : List (String × PyVal))

/-- Python `d[k]` lookup on a (duplicate-free) Python dict rendered as a list. -/
def pyDictGet (d : List (String × PyVal)) (k : String) : Option PyVal :=
  match d with
  | [] => none
  | (k', v) :: rest => if k' = k then some v else pyDictGet rest k

/-- Python `d.get(k, {})` restricted to mapping results: a missing key or a
non-mapping value is rendered as the empty mapping (the code only ever feeds
the result to another `.get`, where both behave the same for the tests the
validator performs). -/
def pyGetDict (d : List (String × PyVal)) (k : String) : List (String × PyVal) :=
  match pyDictGet d k with
  | some (.vdict m) => m
  | _ => []

/-- Python `d.get(k, default)` restricted to string results: a missing key or a
non-string value is rendered as the default (the code only compares the
result with the literal `'python'`, where both give the same answer). -/
def pyGetStr (d : List (String × PyVal)) (k default : String) : String :=
  match pyDictGet d k with
  | some (.vstr s) => s
  | _ => default

/-- Python `k in d` for a Python dict: top-level key membership. -/
def pyHasKey (d : List (String × PyVal)) (k : String) : Bool :=
  d.any (fun kv => kv.1 = k)

/-- An element of the `modified_files_list` set: Python stores plain path
strings and `(old_path, new_path)` tuples in the same set. -/
inductive PathEntry where
  | single (path : String)
  | renamed (old_path new_path : String)
  deriving DecidableEq, Repr

/-- The file path an entry stands for: for a renamed pair, the new path
(this is what `validate_modified_files` and the schema-change loop read). -/
def entryPath : PathEntry → String
  | .single p => p
  | .renamed _ n => n

/-- The `old_file_path` a modified-set entry carries: `None` for a plain
path, the rename source for a tuple. -/
def entryOldPath : PathEntry → Option String
  | .single _ => none
  | .renamed o _ => some o

/-- The plain string paths occurring as (non-tuple) elements of a modified
set; used for Python's `set difference` between a set of entries and a set of
strings. -/
def singlePaths (m : Finset PathEntry) : Finset String :=
  m.biUnion (fun e => match e with
    | .single p => {p}
    | .renamed _ _ => ∅)

/-- The effect of classifying one diff record: at most one insertion into one
of the four sets (the body of the `for` loop of `get_modified_files` performs
at most one `.add`). -/
inductive LineDelta where
  | skip
  | addModified (e : PathEntry)
  | addAdded (p : String)
  | addDeleted (p : String)
  | addOldFormat (p : String)
  deriving DecidableEq, Repr

/-- The plain string path a delta inserts, if any (a renamed tuple inserts no
string element). -/
def deltaStr : LineDelta → Option String
  | .skip => none
  | .addModified (.single p) => some p
  | .addModified (.renamed _ _) => none
  | .addAdded p => some p
  | .addDeleted p => some p
  | .addOldFormat p => some p

/-- The four sets built by `get_modified_files`. -/
structure FourSets where
  modified : Finset PathEntry
  added : Finset String
  deleted : Finset String
  old_format : Finset String
  deriving DecidableEq

/-- The empty state of the four sets. -/
def FourSets.empty : FourSets := ⟨∅, ∅, ∅, ∅⟩

/-- Apply one record's classification to the four sets. -/
def applyDelta (sets : FourSets) : LineDelta → FourSets
  | .skip => sets
  | .addModified e => { sets with modified := insert e sets.modified }
  | .addAdded p => { sets with added := insert p sets.added }
  | .addDeleted p => { sets with deleted := insert p sets.deleted }
  | .addOldFormat p => { sets with old_format := insert p sets.old_format }

/-- A string path is present somewhere in the four sets (tuples count through
their membership as set elements, not through their components). -/
def pathInSets (sets : FourSets) (p : String) : Prop :=
  PathEntry.single p ∈ sets.modified ∨ p ∈ sets.added ∨ p ∈ sets.deleted ∨
    p ∈ sets.old_format

/-- The four sets are pairwise disjoint at the level of string paths. -/
def SetsDisjoint (sets : FourSets) : Prop :=
  ∀ p : String,
    ¬(PathEntry.single p ∈ sets.modified ∧ p ∈ sets.added) ∧
    ¬(PathEntry.single p ∈ sets.modified ∧ p ∈ sets.deleted) ∧
    ¬(PathEntry.single p ∈ sets.modified ∧ p ∈ sets.old_format) ∧
    ¬(p ∈ sets.added ∧ p ∈ sets.deleted) ∧
    ¬(p ∈ sets.added ∧ p ∈ sets.old_format) ∧
    ¬(p ∈ sets.deleted ∧ p ∈ sets.old_format)

/-- The environment of the validator: the regex constants, the YAML loader,
the `git` subprocess, and the collaborator validators, all of which live
outside the analysed module and are therefore opaque oracles here.  Validator
oracles take exactly the data the corresponding Python constructor and method
calls receive. -/
structure Env where
  /-- Oracle for `run_command`: command text to captured stdout. -/
  run_command : String → String
  /-- branch name parsed from `git branch` during `__init__`. -/
  current_branch : String
  /-- Oracle for `checked_type(path)` against the default `CHECKED_TYPES_REGEXES`. -/
  checked_type : String → Bool
  /-- Oracle for `checked_type(path, CODE_FILES_REGEX)`. -/
  code_file : String → Bool
  /-- Oracle for `checked_type(path, OLD_YML_FORMAT_FILE)`. -/
  old_yml_format : String → Bool
  /-- Oracle for `checked_type(path, [SCHEMA_REGEX])`. -/
  schema_file : String → Bool
  /-- Oracle for `re.match(INTEGRATION_REGEX, path, re.IGNORECASE)`. -/
  integration_match : String → Bool
  /-- Oracle for `re.match(INTEGRATION_YML_REGEX, path, re.IGNORECASE)`. -/
  integration_yml_match : String → Bool
  /-- Oracle for `re.match(BETA_INTEGRATION_REGEX, path, re.IGNORECASE)`. -/
  beta_integration_match : String → Bool
  /-- Oracle for `re.match(BETA_INTEGRATION_YML_REGEX, path, re.IGNORECASE)`. -/
  beta_integration_yml_match : String → Bool
  /-- Oracle for `re.match(SCRIPT_REGEX, path, re.IGNORECASE)`. -/
  script_match : String → Bool
  /-- Oracle for `re.match(SCRIPT_YML_REGEX, path, re.IGNORECASE)`. -/
  script_yml_match : String → Bool
  /-- Oracle for `re.match(SCRIPT_PY_REGEX, path, re.IGNORECASE)`. -/
  script_py_match : String → Bool
  /-- Oracle for `re.match(SCRIPT_JS_REGEX, path, re.IGNORECASE)`. -/
  script_js_match : String → Bool
  /-- Oracle for `re.match(IMAGE_REGEX, path, re.IGNORECASE)`. -/
  image_match : String → Bool
  /-- Oracle for `re.match(INCIDENT_FIELD_REGEX, path, re.IGNORECASE)`. -/
  incident_field_match : String → Bool
  /-- Oracle for `re.match(TEST_PLAYBOOK_REGEX, path, re.IGNORECASE)`. -/
  test_playbook_match : String → Bool
  /-- Oracle for `get_yaml(path)` as a top-level mapping. -/
  get_yaml : String → List (String × PyVal)
  /-- Oracle for `ConfJsonValidator().is_valid_conf_json()`. -/
  conf_json_valid : Bool
  /-- Oracle for `ConfJsonValidator().is_test_in_conf_json(id)`. -/
  conf_test_in_conf_json : String → Bool
  /-- Oracle for `collect_ids(path)`. -/
  collect_ids : String → String
  /-- Oracle for `StructureValidator(path, use_git, is_added_file, is_renamed)
  .is_file_valid()`. -/
  structure_is_file_valid : String → Bool → Bool → Bool → Bool
  /-- Oracle for `IDSetValidator.is_file_valid_in_set(path)`. -/
  id_set_is_file_valid_in_set : String → Bool
  /-- Oracle for `IDSetValidator.is_file_has_used_id(path)`. -/
  id_set_is_file_has_used_id : String → Bool
  /-- Oracle for `ImageValidator(path).is_valid()`. -/
  image_is_valid : String → Bool
  /-- Oracle for `DescriptionValidator(path).is_valid()`. -/
  description_is_valid : String → Bool
  /-- Oracle for `DescriptionValidator(path).is_valid_beta_description()`. -/
  description_is_valid_beta : String → Bool
  /-- Oracle for `IntegrationValidator(path, old_file_path, old_git_branch)
  .is_backward_compatible()`. -/
  integration_is_backward_compatible : String → Option String → String → Bool
  /-- Oracle for `IntegrationValidator(path, old_file_path).is_valid_integration()`. -/
  integration_is_valid : String → Option String → Bool
  /-- Oracle for `IntegrationValidator(path, old_file_path)
  .is_valid_beta_integration(is_new)`. -/
  integration_is_valid_beta : String → Option String → Bool → Bool
  /-- Oracle for `ScriptValidator(path, old_file_path, old_git_branch)
  .is_backward_compatible()`. -/
  script_is_backward_compatible : String → Option String → String → Bool
  /-- Oracle for `ScriptValidator(path, old_file_path, old_git_branch)
  .is_valid_script()`. -/
  script_is_valid : String → Option String → Bool
  /-- Oracle for `Unifier(dir).get_script_package_data()[0]`: the yml path of a package
  directory. -/
  unifier_yml_path : String → String
  /-- Oracle for `IncidentFieldValidator(path, old_file_path, old_git_branch)
  .is_valid()`; `none` for an argument left at its constructor default. -/
  incident_field_is_valid : String → Option String → Option String → Bool
  /-- Oracle for `IncidentFieldValidator(path, old_file_path, old_git_branch)
  .is_backward_compatible()`. -/
  incident_field_is_backward_compatible : String → Option String → String → Bool
  /-- The aggregate outcome of the `validate_all_files` filesystem sweep
  (lines 372-400): that sweep only walks `os.walk` results and conjoins
  `StructureValidator(...).is_valid_scheme()` over them into the verdict, so
  it is abstracted to its aggregate boolean. -/
  all_files_pass : Bool

/-- The mutable attributes of a `FilesValidator` instance (constructed in
`__init__`, lines 43-69; `conf_json_validator` / `id_set_validator` are
collaborator objects represented by the oracles in `Env`). -/
structure FilesValidator where
  branch_name : String
  use_git : Bool
  prev_ver : String
  /-- Embedding of `_is_valid`, the verdict accumulator. -/
  is_valid : Bool
  is_backward_check : Bool
  is_circle : Bool
  print_ignored_files : Bool
  validate_conf_json : Bool
  validate_id_set : Bool
  deriving DecidableEq, Repr

/-- Embedding of `FilesValidator.__init__` (lines 43-69): the branch name is read from
`git branch` only when `use_git`; an empty `prev_ver` falls back to
`origin/master`; the verdict starts true. -/
def FilesValidator.init (env : Env) (is_backward_check : Bool := true)
    (prev_ver : String := "origin/master") (use_git : Bool := true)
    (is_circle : Bool := false) (print_ignored_files : Bool := false)
    (validate_conf_json : Bool := true) (validate_id_set : Bool := false) :
    FilesValidator :=
  { branch_name := if use_git then env.current_branch else ""
    use_git := use_git
    prev_ver := if prev_ver = "" then "origin/master" else prev_ver
    is_valid := true
    is_backward_check := is_backward_check
    is_circle := is_circle
    print_ignored_files := print_ignored_files
    validate_conf_json := validate_conf_json
    validate_id_set := validate_id_set }

/-- Embedding of `FilesValidator._is_py_script_or_integration` (lines 453-468): a path is
a Python script or integration when its YAML marks `type` (resp.
`script.type`) as `python`; the default is `javascript`. -/
def isPyScriptOrIntegration (env : Env) (file_path : String) : Bool :=
  let file_yml := env.get_yaml file_path
  if env.integration_match file_path then
    pyGetStr (pyGetDict file_yml "script") "type" "javascript" = "python"
  else if env.script_match file_path then
    pyGetStr file_yml "type" "javascript" = "python"
  else false

/-- Lines 107-131: the `elif` cascade classifying one record once its status
and working path are fixed.  `file_status` is the (possibly `r`-normalised)
status, `file_path` the (possibly code-to-yml rewritten) path, and
`data1`/`data2` are `file_data[1]`/`file_data[2]` as re-read by the rename
arm (for a non-rename record that arm cannot fire and both equal the
original path).  The unknown-status and ignored-file arms only print. -/
def classifyDispatch (env : Env) (file_status file_path data1 data2 : String) :
    LineDelta :=
  let st := strToLower file_status
  if (st = "m" ∨ st = "a" ∨ st = "r") ∧ env.old_yml_format file_path ∧
      isPyScriptOrIntegration env file_path then
    .addOldFormat file_path
  else if st = "m" ∧ env.checked_type file_path ∧
      ¬ strStartsWith file_path "." then
    .addModified (.single file_path)
  else if st = "a" ∧ env.checked_type file_path ∧
      ¬ strStartsWith file_path "." then
    .addAdded file_path
  else if st = "d" ∧ env.checked_type file_path ∧
      ¬ strStartsWith file_path "." then
    .addDeleted file_path
  else if strStartsWith st "r" ∧ env.checked_type file_path then
    if env.code_file data2 then .addModified (.single file_path)
    else .addModified (.renamed data1 data2)
  else if env.schema_file file_path then
    .addModified (.single file_path)
  else
    .skip

/-- Lines 100-105: the code-file-to-yml normalisation applied before the
cascade.  A non-deleted, non-test code file is rewritten to its sibling yml;
otherwise a remaining `.js`/`.py` path is skipped. -/
def classifyCore (env : Env) (file_status file_path data1 data2 : String) :
    LineDelta :=
  if env.code_file file_path ∧ strToLower file_status ≠ "d" ∧
      ¬ strEndsWith file_path "_test.py" then
    classifyDispatch env file_status (splitextRoot file_path ++ ".yml")
      data1 data2
  else if strEndsWith file_path ".js" ∨ strEndsWith file_path ".py" then
    .skip
  else
    classifyDispatch env file_status file_path data1 data2

/-- Lines 88-131: classify the whitespace-split tokens of one diff line.
An empty line is skipped; a line with a single token raises `IndexError` at
`file_data[1]` (modelled `none`), as does a rename line without
`file_data[2]`; a rename status is normalised to `r` and the path taken from
`file_data[2]`. -/
def classifyTokens (env : Env) (file_data : List String) : Option LineDelta :=
  match file_data with
  | [] => some .skip
  | file_status :: rest =>
    match rest.get? 0 with
    | none => none
    | some path1 =>
      if strStartsWith (strToLower file_status) "r" then
        match rest.get? 1 with
        | none => none
        | some path2 => some (classifyCore env "r" path2 path1 path2)
      else
        some (classifyCore env file_status path1 path1 path1)

/-- The loop of `get_modified_files`: classify each line in order, folding
the insertions into the four sets; an `IndexError` on any line aborts the
whole call (`none`). -/
def processLines (env : Env) : List String → FourSets → Option FourSets
  | [], sets => some sets
  | line :: rest, sets =>
    match classifyTokens env (pySplit line) with
    | none => none
    | some d => processLines env rest (applyDelta sets d)

/-- Modelled from the spec: `filter_packagify_changes` (imported from
`common/tools`, line 133) is not among the analysed sources.  The spec
excludes the packaging/unification step from the orchestration core
(non-goals of section 1) and describes `get_modified_files` as returning the
classified sets directly, so the reconciliation is modelled as the
identity on the three sets it receives. -/
def filterPackagifyChanges (modified_files_list : Finset PathEntry)
    (added_files_list deleted_files : Finset String) (tag : String) :
    Finset PathEntry × Finset String × Finset String :=
  (modified_files_list, added_files_list, deleted_files)

/-- Embedding of `FilesValidator.get_modified_files` (lines 71-139): split the diff text
into lines, classify each, then pass modified/added/deleted through
`filter_packagify_changes`.  `none` models an uncaught `IndexError` on a
malformed line. -/
def get_modified_files (env : Env) (files_string : String)
    (tag : String := "master") (print_ignored_files : Bool := false) :
    Option FourSets :=
  match processLines env (splitLines files_string) FourSets.empty with
  | none => none
  | some sets =>
    let (m, a, d) :=
      filterPackagifyChanges sets.modified sets.added sets.deleted tag
    some ⟨m, a, d, sets.old_format⟩

/-- The branch-bounded diff command of line 153-156: two-dot form, with the
extra dot (three-dot merge-base form) exactly when `'master' in tag`. -/
def diffBranchCmd (self : FilesValidator) (tag : String) : String :=
  "git diff --name-status " ++ tag ++ ".." ++
    (if containsMaster tag then "." else "") ++ "refs/heads/" ++
    self.branch_name

/-- The working-tree diff command of line 163. -/
def headDiffCmd : String := "git diff --name-status --no-merges HEAD"

/-- The direct tag diff command of line 168. -/
def diffTagCmd (tag : String) : String := "git diff --name-status " ++ tag

/-- Embedding of `FilesValidator.get_modified_and_added_files` (lines 141-183): collect
the tag-vs-branch sets; in CI mode return them as-is; otherwise also collect
the working-tree sets and the direct-tag sets and reconcile:
old-format is unioned with the working-tree old-format set, modified gains
the intersection of the direct-tag and working-tree modified sets, added
gains the intersection of the direct-tag and working-tree added sets, then
locally deleted paths are removed from modified and added, and locally
modified paths are removed from added. -/
def get_modified_and_added_files (env : Env) (self : FilesValidator)
    (tag : String := "origin/master") :
    Option (Finset PathEntry × Finset String × Finset String) :=
  match get_modified_files env (env.run_command (diffBranchCmd self tag)) tag
      self.print_ignored_files with
  | none => none
  | some s1 =>
    if self.is_circle then
      some (s1.modified, s1.added, s1.old_format)
    else
      match get_modified_files env (env.run_command headDiffCmd) "master"
          self.print_ignored_files,
        get_modified_files env (env.run_command (diffTagCmd tag)) "master"
          self.print_ignored_files with
      | some s2, some s3 =>
        let old_format_files := s1.old_format ∪ s2.old_format
        let modified_files := s1.modified ∪ (s3.modified ∩ s2.modified)
        let added_files := s1.added ∪ (s3.added ∩ s2.added)
        let modified_files :=
          modified_files \ Finset.image PathEntry.single s2.deleted
        let added_files := (added_files \ singlePaths s2.modified) \ s2.deleted
        some (modified_files, added_files, old_format_files)
      | _, _ => none

/-- The body of the `for` loop of `validate_modified_files` (lines 193-272):
one iteration reads the current verdict `valid` and returns the verdict after
processing `entry`.  A tuple entry is unpacked into `old_file_path` and
`file_path`; a non-content path is skipped; then the structure check runs,
followed by either the id-set check (when `validate_id_set`) or the
content-type `elif` cascade. -/
def validate_modified_file (env : Env) (self : FilesValidator) (valid : Bool)
    (entry : PathEntry) : Bool :=
  let old_file_path : Option String := entryOldPath entry
  let file_path := entryPath entry
  if ¬ env.checked_type file_path then valid
  else
    let is_added_file := self.branch_name ≠ "" ∧
      ¬ (False ∨ self.is_backward_check)
    let is_renamed := self.branch_name ≠ "" ∧ old_file_path.isSome
    let valid := if ¬ env.structure_is_file_valid file_path self.use_git
        (decide is_added_file) (decide is_renamed) then false else valid
    if self.validate_id_set then
      if ¬ env.id_set_is_file_valid_in_set file_path then false else valid
    else if env.integration_match file_path ∨
        env.integration_yml_match file_path then
      let valid := if ¬ env.image_is_valid file_path then false else valid
      let valid := if ¬ env.description_is_valid file_path then false
        else valid
      let valid := if self.is_backward_check ∧
          ¬ env.integration_is_backward_compatible file_path old_file_path
            self.prev_ver then false else valid
      if ¬ env.integration_is_valid file_path old_file_path then false
      else valid
    else if env.beta_integration_match file_path ∨
        env.beta_integration_yml_match file_path then
      let valid := if ¬ env.description_is_valid_beta file_path then false
        else valid
      if ¬ env.integration_is_valid_beta file_path old_file_path false then
        false
      else valid
    else if env.script_match file_path then
      let valid := if self.is_backward_check ∧
          ¬ env.script_is_backward_compatible file_path old_file_path
            self.prev_ver then false else valid
      if ¬ env.script_is_valid file_path old_file_path then false else valid
    else if env.script_yml_match file_path ∨ env.script_py_match file_path ∨
        env.script_js_match file_path then
      let yml_path := env.unifier_yml_path (dirname file_path)
      if self.is_backward_check ∧
          ¬ env.script_is_backward_compatible yml_path old_file_path
            self.prev_ver then false
      else valid
    else if env.image_match file_path then
      if ¬ env.image_is_valid file_path then false else valid
    else if env.incident_field_match file_path then
      let valid := if ¬ env.incident_field_is_valid file_path old_file_path
          (some self.prev_ver) then false else valid
      if self.is_backward_check ∧
          ¬ env.incident_field_is_backward_compatible file_path old_file_path
            self.prev_ver then false
      else valid
    else valid

/-- Embedding of `FilesValidator.validate_modified_files` (lines 185-272) as the verdict
it leaves in `_is_valid`.  Each loop iteration only conjoins per-file checks
that do not depend on the running verdict (see
`validate_modified_file_thread` and `validate_modified_files_foldl`), so the
loop over the Python set — whose iteration order is unspecified — is the
conjunction of `validate_modified_file` over all members, starting from the
current verdict. -/
def validate_modified_files (env : Env) (self : FilesValidator)
    (modified_files : Finset PathEntry) : Bool :=
  self.is_valid &&
    decide (∀ e ∈ modified_files, validate_modified_file env self true e = true)

/-- The body of the `for` loop of `validate_added_files` (lines 282-334):
structure check (with `is_added_file=True`), the id-set block (membership and
used-id) when `validate_id_set`, then the content-type `if`/`elif` cascade.
Unlike the modified-file loop, the id-set block here is a separate `if`, so
the cascade runs as well. -/
def validate_added_file (env : Env) (self : FilesValidator) (valid : Bool)
    (file_path : String) : Bool :=
  let valid := if ¬ env.structure_is_file_valid file_path self.use_git true
      false then false else valid
  let valid := if self.validate_id_set then
      let valid := if ¬ env.id_set_is_file_valid_in_set file_path then false
        else valid
      if env.id_set_is_file_has_used_id file_path then false else valid
    else valid
  if env.test_playbook_match file_path then
    if ¬ env.conf_test_in_conf_json (env.collect_ids file_path) then false
    else valid
  else if env.integration_match file_path ∨
      env.integration_yml_match file_path ∨ env.image_match file_path then
    let valid := if ¬ env.image_is_valid file_path then false else valid
    let valid := if ¬ env.description_is_valid file_path then false else valid
    if ¬ env.integration_is_valid file_path none then false else valid
  else if env.beta_integration_match file_path ∨
      env.beta_integration_yml_match file_path then
    let valid := if ¬ env.description_is_valid_beta file_path then false
      else valid
    if ¬ env.integration_is_valid_beta file_path none true then false
    else valid
  else if env.image_match file_path then
    if ¬ env.image_is_valid file_path then false else valid
  else if env.incident_field_match file_path then
    if ¬ env.incident_field_is_valid file_path none none then false
    else valid
  else valid

/-- Embedding of `FilesValidator.validate_added_files` (lines 274-334) as the verdict it
leaves in `_is_valid` (same loop-to-conjunction reading as
`validate_modified_files`). -/
def validate_added_files (env : Env) (self : FilesValidator)
    (added_files : Finset String) : Bool :=
  self.is_valid &&
    decide (∀ p ∈ added_files, validate_added_file env self true p = true)

/-- Embedding of `FilesValidator.validate_no_old_format` (lines 336-351): collect the
old-format files whose YAML lacks a `toversion` key; if any exist, print an
error and set the verdict to false. -/
def validate_no_old_format (env : Env) (self : FilesValidator)
    (old_format_files : Finset String) : FilesValidator :=
  let invalid_files := old_format_files.filter
    (fun f => ¬ pyHasKey (env.get_yaml f) "toversion")
  if invalid_files ≠ ∅ then { self with is_valid := false } else self

/-- Embedding of `FilesValidator.validate_all_files` (lines 372-400): the full-repository
sweep.  It walks the content directories and conjoins
`StructureValidator(...).is_valid_scheme()` for every file into the verdict;
the filesystem is outside the model, so the aggregate outcome of the walk is
the `all_files_pass` oracle. -/
def validate_all_files (env : Env) (self : FilesValidator) : FilesValidator :=
  { self with is_valid := self.is_valid && env.all_files_pass }

/-- The sweep phases observable at the granularity of the orchestration
claims: which validation pass ran. -/
inductive SweepEvent where
  | allFiles
  | modifiedFiles
  | addedFiles
  | oldFormatFiles
  deriving DecidableEq, Repr

/-- Embedding of `FilesValidator.validate_committed_files` (lines 353-370): collect the
changeset; if any modified entry (tuples contribute their new path) is a
schema file, run the full sweep; otherwise validate modified files, then
added files, then gate old-format files.  The returned list records which
sweeps ran, in order. -/
def validate_committed_files (env : Env) (self : FilesValidator) :
    Option (FilesValidator × List SweepEvent) :=
  match get_modified_and_added_files env self "origin/master" with
  | none => none
  | some (modified_files, added_files, old_format_files) =>
    let schema_changed :=
      decide (∃ f ∈ modified_files, env.schema_file (entryPath f) = true)
    if schema_changed then
      some (validate_all_files env self, [.allFiles])
    else
      let s1 := { self with
        is_valid := validate_modified_files env self modified_files }
      let s2 := { s1 with
        is_valid := validate_added_files env s1 added_files }
      let s3 := validate_no_old_format env s2 old_format_files
      some (s3, [.modifiedFiles, .addedFiles, .oldFormatFiles])

/-- The guarded body of `validate_against_previous_version` (lines 433-438):
collect the modified files against `prev_ver`, save the verdict, run the
modified-file validation, and restore the saved verdict when `no_error`. -/
def validate_against_previous_version_body (env : Env)
    (self : FilesValidator) (no_error : Bool) : Option FilesValidator :=
  match get_modified_and_added_files env self self.prev_ver with
  | none => none
  | some (modified_files, _, _) =>
    let prev_self_valid := self.is_valid
    let v := validate_modified_files env self modified_files
    some { self with is_valid := if no_error then prev_self_valid else v }

/-- Embedding of `FilesValidator.validate_against_previous_version` (lines 426-438): the
body only runs when `prev_ver` is non-empty and differs from `master`. -/
def validate_against_previous_version (env : Env) (self : FilesValidator)
    (no_error : Bool := false) : Option FilesValidator :=
  if self.prev_ver ≠ "" ∧ self.prev_ver ≠ "master" then
    validate_against_previous_version_body env self no_error
  else some self

/-- Embedding of `FilesValidator.is_valid_structure` (lines 402-424) as the state it
leaves behind (the Python method returns `self._is_valid` of that state):
conf.json check, then — on a feature branch — committed-file validation
followed by the advisory previous-version pass, or — on master / a release
branch — the advisory pass followed by the full sweep, or — with no branch —
the full sweep alone. -/
def is_valid_structure (env : Env) (self : FilesValidator) :
    Option FilesValidator :=
  let s1 := if self.validate_conf_json then
      { self with is_valid := self.is_valid && env.conf_json_valid }
    else self
  if s1.branch_name ≠ "" then
    if s1.branch_name ≠ "master" ∧ ¬ strStartsWith s1.branch_name "19." ∧
        ¬ strStartsWith s1.branch_name "20." then
      match validate_committed_files env s1 with
      | none => none
      | some (s2, _) => validate_against_previous_version env s2 true
    else
      match validate_against_previous_version env s1 true with
      | none => none
      | some s2 => some (validate_all_files env s2)
  else some (validate_all_files env s1)

/-- The successive values of the `_is_valid` accumulator inside one
`validate_against_previous_version` call: the value after the inner
`validate_modified_files` loop, then the value after the optional restore.
Empty when the guard fails (no assignment happens). -/
def validate_against_previous_version_valid_trace (env : Env)
    (self : FilesValidator) (no_error : Bool) : Option (List Bool) :=
  if self.prev_ver ≠ "" ∧ self.prev_ver ≠ "master" then
    match get_modified_and_added_files env self self.prev_ver with
    | none => none
    | some (modified_files, _, _) =>
      let v := validate_modified_files env self modified_files
      some [v, if no_error then self.is_valid else v]
  else some []

/-- The successive values of the `_is_valid` accumulator during one
`is_valid_structure` call, at every point the source (re)assigns it: the
entry value, the value after the conf.json block, then per branch arm the
value after each sweep and — inside the advisory previous-version pass — the
value after its inner validation loop and after its restore. -/
def is_valid_structure_valid_trace (env : Env) (self : FilesValidator) :
    Option (List Bool) :=
  let s1 := if self.validate_conf_json then
      { self with is_valid := self.is_valid && env.conf_json_valid }
    else self
  let base := [self.is_valid, s1.is_valid]
  if s1.branch_name ≠ "" then
    if s1.branch_name ≠ "master" ∧ ¬ strStartsWith s1.branch_name "19." ∧
        ¬ strStartsWith s1.branch_name "20." then
      match validate_committed_files env s1 with
      | none => none
      | some (s2, _) =>
        match validate_against_previous_version_valid_trace env s2 true with
        | none => none
        | some t => some (base ++ [s2.is_valid] ++ t)
    else
      match validate_against_previous_version_valid_trace env s1 true,
          validate_against_previous_version env s1 true with
      | some t, some s2 =>
        some (base ++ t ++ [(validate_all_files env s2).is_valid])
      | _, _ => none
  else some (base ++ [(validate_all_files env s1).is_valid])

/-- A boolean trace never steps from `false` back to `true` (adjacent
pairs). -/
def noFalseToTrue : List Bool → Bool
  | [] => true
  | [_] => true
  | a :: b :: rest => (a ∨ ¬ b) ∧ noFalseToTrue (b :: rest)

/-- A concrete environment in which every diff is empty, no pattern matches,
and every collaborator validator passes; the concrete instantiations below
override individual oracles. -/
def baseEnv : Env where
  run_command := fun _ => ""
  current_branch := "feature"
  checked_type := fun _ => false
  code_file := fun _ => false
  old_yml_format := fun _ => false
  schema_file := fun _ => false
  integration_match := fun _ => false
  integration_yml_match := fun _ => false
  beta_integration_match := fun _ => false
  beta_integration_yml_match := fun _ => false
  script_match := fun _ => false
  script_yml_match := fun _ => false
  script_py_match := fun _ => false
  script_js_match := fun _ => false
  image_match := fun _ => false
  incident_field_match := fun _ => false
  test_playbook_match := fun _ => false
  get_yaml := fun _ => []
  conf_json_valid := true
  conf_test_in_conf_json := fun _ => true
  collect_ids := fun _ => ""
  structure_is_file_valid := fun _ _ _ _ => true
  id_set_is_file_valid_in_set := fun _ => true
  id_set_is_file_has_used_id := fun _ => false
  image_is_valid := fun _ => true
  description_is_valid := fun _ => true
  description_is_valid_beta := fun _ => true
  integration_is_backward_compatible := fun _ _ _ => true
  integration_is_valid := fun _ _ => true
  integration_is_valid_beta := fun _ _ _ => true
  script_is_backward_compatible := fun _ _ _ => true
  script_is_valid := fun _ _ => true
  unifier_yml_path := fun _ => ""
  incident_field_is_valid := fun _ _ _ => true
  incident_field_is_backward_compatible := fun _ _ _ => true
  all_files_pass := true

/-- A concrete validator state on a feature branch with default flags. -/
def baseSelf : FilesValidator where
  branch_name := "feature"
  use_git := true
  prev_ver := "origin/master"
  is_valid := true
  is_backward_check := true
  is_circle := false
  print_ignored_files := false
  validate_conf_json := false
  validate_id_set := false

/-- Environment for exercising the reconciliation of
`get_modified_and_added_files`: the branch diff and direct tag diff modify
`Integrations/y.yml`, while the working tree modifies `Integrations/x.yml`
and deletes `Integrations/y.yml`. -/
def envRecon : Env :=
  { baseEnv with
    run_command := fun cmd =>
      if cmd = headDiffCmd then
        "M Integrations/x.yml\nD Integrations/y.yml"
      else "M Integrations/y.yml"
    checked_type := fun _ => true }

/-- Environment whose previous-version diff contains one modified
integration yml that fails the structure check. -/
def envPrevFail : Env :=
  { baseEnv with
    run_command := fun _ => "M Integrations/int.yml"
    checked_type := fun _ => true
    structure_is_file_valid := fun _ _ _ _ => false }

/-- State for the previous-version claims: CI mode (only the committed diff
is collected), feature branch, default previous version. -/
def selfPrevFail : FilesValidator := { baseSelf with is_circle := true }

/-- State on branch `master` in CI mode: `is_valid_structure` takes the
advisory-then-full-sweep arm. -/
def selfMasterBranch : FilesValidator :=
  { baseSelf with branch_name := "master", is_circle := true }

/-- Environment for the schema-escalation claim: the committed diff contains
one path that the schema pattern matches (and `checked_type` does not). -/
def envSchema : Env :=
  { baseEnv with
    run_command := fun _ => "M Tests/schemas/integration.yml"
    schema_file := fun p => p = "Tests/schemas/integration.yml" }

/-- Environment producing the same path once as modified and once as
deleted: diff text with an `M` record and a `D` record for one path. -/
def envClash : Env :=
  { baseEnv with checked_type := fun _ => true }

/-- The diff text of the disjointness counterexample: the same path occurs
in an `M` record and in a `D` record. -/
def clashInput : String := "M Integrations/x.yml\nD Integrations/x.yml"

/-- State with the id-set check enabled. -/
def selfIdSet : FilesValidator := { baseSelf with validate_id_set := true }

/-- Environment in which every path is content-typed. -/
def envChecked : Env := { baseEnv with checked_type := fun _ => true }

/-- Environment whose YAML oracle gives every file a `toversion` ceiling. -/
def envToversion : Env :=
  { baseEnv with get_yaml := fun _ => [("toversion", PyVal.vstr "4.0")] }

/-- Environment for the rename-classification claim: `.py` files are code
files, yml paths are content-typed. -/
def envRename : Env :=
  { baseEnv with
    checked_type := fun p => strEndsWith p ".yml"
    code_file := fun p => strEndsWith p ".py" }

/-- Classify each line of the diff in order, collecting the per-record
deltas (`none` models the `IndexError` abort, as in `processLines`). -/
def lineDeltas (env : Env) : List String → Option (List LineDelta)
  | [] => some []
  | line :: rest =>
    match classifyTokens env (pySplit line), lineDeltas env rest with
    | some d, some ds => some (d :: ds)
    | _, _ => none

/-- The pattern-oracle facts guarding each kind of delta the cascade can
emit: which branch condition must have held for this insertion to happen. -/
def DeltaGuard (env : Env) : LineDelta → Prop
  | .skip => True
  | .addModified (.single p) =>
    (env.checked_type p = true ∧ strStartsWith p "." = false) ∨
      env.checked_type p = true ∨ env.schema_file p = true
  | .addModified (.renamed _ n) => env.checked_type n = true
  | .addAdded p => env.checked_type p = true ∧ strStartsWith p "." = false
  | .addDeleted p => env.checked_type p = true ∧ strStartsWith p "." = false
  | .addOldFormat p => env.old_yml_format p = true

/-- The path a delta inserts (for a renamed pair, its new path) is not a
hidden file. -/
def DeltaNoDot : LineDelta → Prop
  | .skip => True
  | .addModified e => strStartsWith (entryPath e) "." = false
  | .addAdded p => strStartsWith p "." = false
  | .addDeleted p => strStartsWith p "." = false
  | .addOldFormat p => strStartsWith p "." = false

/-- No pattern constant matches a hidden (dot-initial) path.  The real
`CHECKED_TYPES_REGEXES`, `OLD_YML_FORMAT_FILE` and `SCHEMA_REGEX` constants
are `re.match`-anchored at the content directories, so they have this
property; they are opaque oracles here, so it is an explicit assumption. -/
def DotFreePatterns (env : Env) : Prop :=
  ∀ p, strStartsWith p "." = true →
    env.checked_type p = false ∧ env.old_yml_format p = false ∧
      env.schema_file p = false

/-- No file path anywhere in the four sets (for a renamed pair, its new
path) is a hidden file. -/
def SetsNoDot (sets : FourSets) : Prop :=
  (∀ e ∈ sets.modified, strStartsWith (entryPath e) "." = false) ∧
  (∀ p ∈ sets.added, strStartsWith p "." = false) ∧
  (∀ p ∈ sets.deleted, strStartsWith p "." = false) ∧
  (∀ p ∈ sets.old_format, strStartsWith p "." = false)

/-- The conf.json block of `is_valid_structure` (lines 408-410) as a state
transformer. -/
def conf_json_step (env : Env) (self : FilesValidator) : FilesValidator :=
  if self.validate_conf_json then
    { self with is_valid := self.is_valid && env.conf_json_valid }
  else self

/-- The tag-vs-branch sets of the reconciliation witness. -/
def reconA : FourSets := ⟨{PathEntry.single "Integrations/y.yml"}, ∅, ∅, ∅⟩

/-- The working-tree sets of the reconciliation witness. -/
def reconNC : FourSets :=
  ⟨{PathEntry.single "Integrations/x.yml"}, ∅, {"Integrations/y.yml"}, ∅⟩

/-- The direct-tag sets of the reconciliation witness. -/
def reconT : FourSets := ⟨{PathEntry.single "Integrations/y.yml"}, ∅, ∅, ∅⟩

/-- Environment whose pattern oracles reject hidden paths and type-check
everything else. -/
def envDotFree : Env :=
  { baseEnv with checked_type := fun p => ! strStartsWith p "." }

/-- One iteration of the modified-file loop only conjoins file checks onto
the incoming verdict: the iteration at `valid` equals `valid &&` the
iteration at `true`. -/
theorem validate_modified_file_thread (env : Env) (self : FilesValidator)
    (valid : Bool) (entry : PathEntry) :
    validate_modified_file env self valid entry =
      (valid && validate_modified_file env self true entry) := by
  cases valid
  · simp only [Bool.false_and]
    unfold validate_modified_file
    simp
  · simp [Bool.true_and]

/-- Hence the loop, run in any order, conjoins all per-file outcomes onto
the incoming verdict; this justifies reading `validate_modified_files` as a
conjunction over the (iteration-order-free) Python set. -/
theorem validate_modified_files_foldl (env : Env) (self : FilesValidator)
    (l : List PathEntry) (valid : Bool) :
    l.foldl (validate_modified_file env self) valid =
      (valid && l.all (fun e => validate_modified_file env self true e)) := by
  induction l generalizing valid with
  | nil => simp
  | cons e rest ih =>
    simp only [List.foldl_cons, List.all_cons]
    rw [ih, validate_modified_file_thread, Bool.and_assoc]

/-- One iteration of the added-file loop only conjoins file checks onto the
incoming verdict. -/
theorem validate_added_file_thread (env : Env) (self : FilesValidator)
    (valid : Bool) (file_path : String) :
    validate_added_file env self valid file_path =
      (valid && validate_added_file env self true file_path) := by
  cases valid
  · simp only [Bool.false_and]
    unfold validate_added_file
    simp
  · simp [Bool.true_and]

/-- The added-file loop, in any order, is the conjunction of per-file
outcomes. -/
theorem validate_added_files_foldl (env : Env) (self : FilesValidator)
    (l : List String) (valid : Bool) :
    l.foldl (validate_added_file env self) valid =
      (valid && l.all (fun p => validate_added_file env self true p)) := by
  induction l generalizing valid with
  | nil => simp
  | cons e rest ih =>
    simp only [List.foldl_cons, List.all_cons]
    rw [ih, validate_added_file_thread, Bool.and_assoc]

/-- Lemma: `validate_modified_files` preserves a false verdict. -/
theorem validate_modified_files_mono (env : Env) (self : FilesValidator)
    (m : Finset PathEntry) (h : validate_modified_files env self m = true) :
    self.is_valid = true :=
  (Bool.and_eq_true_iff.mp h).1

/-- Lemma: `validate_added_files` preserves a false verdict. -/
theorem validate_added_files_mono (env : Env) (self : FilesValidator)
    (a : Finset String) (h : validate_added_files env self a = true) :
    self.is_valid = true :=
  (Bool.and_eq_true_iff.mp h).1

/-- Lemma: `validate_no_old_format` preserves a false verdict. -/
theorem validate_no_old_format_mono (env : Env) (self : FilesValidator)
    (o : Finset String)
    (h : (validate_no_old_format env self o).is_valid = true) :
    self.is_valid = true := by
  unfold validate_no_old_format at h
  simp only [apply_ite FilesValidator.is_valid] at h
  split at h
  · simp at h
  · exact h

/-- Lemma: `validate_all_files` preserves a false verdict. -/
theorem validate_all_files_mono (env : Env) (self : FilesValidator)
    (h : (validate_all_files env self).is_valid = true) :
    self.is_valid = true :=
  (Bool.and_eq_true_iff.mp h).1

/-- Lemma: `validate_committed_files` preserves a false verdict. -/
theorem validate_committed_files_mono (env : Env) (self : FilesValidator)
    (out : FilesValidator) (tr : List SweepEvent)
    (h : validate_committed_files env self = some (out, tr))
    (hv : out.is_valid = true) : self.is_valid = true := by
  unfold validate_committed_files at h
  cases hg : get_modified_and_added_files env self "origin/master" with
  | none => rw [hg] at h; exact absurd h (by simp)
  | some trip =>
    obtain ⟨m, a, o⟩ := trip
    rw [hg] at h
    simp only [] at h
    split at h
    · rw [Option.some_inj] at h
      have h1 := congrArg Prod.fst h
      simp only [] at h1
      rw [← h1] at hv
      exact validate_all_files_mono env self hv
    · rw [Option.some_inj] at h
      have h1 := congrArg Prod.fst h
      simp only [] at h1
      rw [← h1] at hv
      have h2 := validate_no_old_format_mono _ _ _ hv
      have h3 := validate_added_files_mono _ _ _ h2
      exact validate_modified_files_mono _ _ _ h3

/-- Lemma: `validate_against_previous_version` preserves a false verdict (with the
restore it copies the pre-call verdict; without it the verdict is the
monotone validation outcome). -/
theorem validate_against_previous_version_mono (env : Env)
    (self : FilesValidator) (no_error : Bool) (out : FilesValidator)
    (h : validate_against_previous_version env self no_error = some out)
    (hv : out.is_valid = true) : self.is_valid = true := by
  unfold validate_against_previous_version at h
  split at h
  · unfold validate_against_previous_version_body at h
    cases hg : get_modified_and_added_files env self self.prev_ver with
    | none => rw [hg] at h; exact absurd h (by simp)
    | some trip =>
      obtain ⟨m, a, o⟩ := trip
      rw [hg] at h
      simp only [] at h
      rw [Option.some_inj] at h
      rw [← h] at hv
      simp only [] at hv
      split at hv
      · exact hv
      · exact validate_modified_files_mono _ _ _ hv
  · rw [Option.some_inj] at h
    rw [← h] at hv
    exact hv

/-- The conf.json block preserves a false verdict. -/
theorem conf_json_step_mono (env : Env) (self : FilesValidator)
    (hv : (conf_json_step env self).is_valid = true) : self.is_valid = true := by
  unfold conf_json_step at hv
  split at hv
  · exact (Bool.and_eq_true_iff.mp hv).1
  · exact hv

/-- Lemma: `is_valid_structure` preserves a false verdict. -/
theorem is_valid_structure_mono (env : Env) (self : FilesValidator)
    (out : FilesValidator) (h : is_valid_structure env self = some out)
    (hv : out.is_valid = true) : self.is_valid = true := by
  unfold is_valid_structure at h
  rw [show (if self.validate_conf_json then
      { self with is_valid := self.is_valid && env.conf_json_valid }
    else self) = conf_json_step env self from rfl] at h
  simp only [] at h
  apply conf_json_step_mono env self
  split at h
  · split at h
    · cases hcf : validate_committed_files env (conf_json_step env self) with
      | none => rw [hcf] at h; exact absurd h (by simp)
      | some pr =>
        obtain ⟨s2, tr⟩ := pr
        rw [hcf] at h
        have := validate_against_previous_version_mono _ _ _ _ h hv
        exact validate_committed_files_mono _ _ _ _ hcf this
    · cases hpv : validate_against_previous_version env
          (conf_json_step env self) true with
      | none => rw [hpv] at h; exact absurd h (by simp)
      | some s2 =>
        rw [hpv] at h
        rw [Option.some_inj] at h
        rw [← h] at hv
        have := validate_all_files_mono _ _ hv
        exact validate_against_previous_version_mono _ _ _ _ hpv this
  · rw [Option.some_inj] at h
    rw [← h] at hv
    exact validate_all_files_mono _ _ hv

/-- C4: `validate_no_old_format` leaves a true verdict true exactly when
every old-format file's YAML has a `toversion` key (so it sets the verdict
to false iff some old-format file lacks `toversion`), and an old-format file
whose YAML contains `toversion` has no effect at all on the outcome; the
embedding is a total function, so no old-format failure escapes as an
exception. -/
theorem validate_no_old_format_toversion (env : Env) (self : FilesValidator)
    (old_format_files : Finset String) :
    ((validate_no_old_format env self old_format_files).is_valid = true ↔
      (self.is_valid = true ∧
        ∀ f ∈ old_format_files, pyHasKey (env.get_yaml f) "toversion" = true)) ∧
    (∀ f, pyHasKey (env.get_yaml f) "toversion" = true →
      validate_no_old_format env self (insert f old_format_files) =
        validate_no_old_format env self old_format_files) := by
  have hfilter : ∀ s : Finset String,
      Finset.filter (fun f => ¬ pyHasKey (env.get_yaml f) "toversion" = true)
          s = ∅ ↔
        ∀ f ∈ s, pyHasKey (env.get_yaml f) "toversion" = true := by
    intro s
    rw [Finset.filter_eq_empty_iff]
    simp
  constructor
  · unfold validate_no_old_format
    simp only []
    by_cases hc : Finset.filter
        (fun f => ¬ pyHasKey (env.get_yaml f) "toversion" = true)
        old_format_files = ∅
    · rw [if_neg (not_not_intro hc)]
      constructor
      · intro hv
        exact ⟨hv, (hfilter _).mp hc⟩
      · intro h
        exact h.1
    · rw [if_pos hc]
      constructor
      · intro h
        exact absurd h (by simp)
      · intro h
        exact absurd ((hfilter _).mpr h.2) hc
  · intro f hf
    have hfi : Finset.filter
        (fun g => ¬ pyHasKey (env.get_yaml g) "toversion" = true)
        (insert f old_format_files) =
        Finset.filter
          (fun g => ¬ pyHasKey (env.get_yaml g) "toversion" = true)
          old_format_files := by
      rw [Finset.filter_insert, if_neg (by simp [hf])]
    unfold validate_no_old_format
    simp only []
    rw [hfi]

/-- Witness for C4: with a YAML oracle that gives every file a `toversion`
key, inserting an old-format file changes nothing. -/
theorem validate_no_old_format_toversion_witness :
    validate_no_old_format envToversion baseSelf
        (insert "Integrations/integration-old.yml" ∅) =
      validate_no_old_format envToversion baseSelf ∅ :=
  (validate_no_old_format_toversion envToversion baseSelf ∅).2
    "Integrations/integration-old.yml" (by decide)

/-- C10: `validate_against_previous_version` is a no-op — it performs no
diff collection or validation and returns the state unchanged — when
`prev_ver` is empty or is exactly `master`; with `prev_ver` equal to the
default `origin/master` the guard passes and the body (diff collection plus
modified-file validation) runs; and a `FilesValidator` constructed with the
default arguments has `prev_ver = "origin/master"`. -/
theorem validate_against_previous_version_guard (env : Env)
    (self : FilesValidator) (no_error : Bool) :
    ((self.prev_ver = "" ∨ self.prev_ver = "master") →
      validate_against_previous_version env self no_error = some self) ∧
    (self.prev_ver = "origin/master" →
      validate_against_previous_version env self no_error =
        validate_against_previous_version_body env self no_error) ∧
    (FilesValidator.init env).prev_ver = "origin/master" := by
  refine ⟨?_, ?_, by simp [FilesValidator.init]⟩
  · intro h
    unfold validate_against_previous_version
    rcases h with h | h <;>
      rw [if_neg (by simp [h])]
  · intro h
    unfold validate_against_previous_version
    rw [if_pos (by rw [h]; exact ⟨by decide, by decide⟩)]

/-- Witness for C10: with `prev_ver = "master"` the call returns the state
unchanged. -/
theorem validate_against_previous_version_guard_witness :
    validate_against_previous_version baseEnv
        { baseSelf with prev_ver := "master" } false =
      some { baseSelf with prev_ver := "master" } :=
  (validate_against_previous_version_guard baseEnv
    { baseSelf with prev_ver := "master" } false).1 (Or.inr rfl)

/-- C2: with a non-empty `prev_ver` different from `master`, the
previous-version pass in no-error mode always returns the verdict to its
pre-call value, whatever the collected diff holds; without no-error mode, a
file of that diff failing the modified-file validation forces the resulting
verdict to false. -/
theorem validate_against_previous_version_no_error (env : Env)
    (self : FilesValidator) (h1 : self.prev_ver ≠ "")
    (h2 : self.prev_ver ≠ "master") :
    (∀ out, validate_against_previous_version env self true = some out →
      out.is_valid = self.is_valid) ∧
    (∀ (m : Finset PathEntry) (a o : Finset String) (e : PathEntry)
        (out : FilesValidator),
      get_modified_and_added_files env self self.prev_ver = some (m, a, o) →
      e ∈ m → validate_modified_file env self true e = false →
      validate_against_previous_version env self false = some out →
      out.is_valid = false) := by
  have hguard : ∀ ne, validate_against_previous_version env self ne =
      validate_against_previous_version_body env self ne := by
    intro ne
    unfold validate_against_previous_version
    rw [if_pos ⟨h1, h2⟩]
  constructor
  · intro out hout
    rw [hguard] at hout
    unfold validate_against_previous_version_body at hout
    cases hg : get_modified_and_added_files env self self.prev_ver with
    | none => rw [hg] at hout; exact absurd hout (by simp)
    | some trip =>
      obtain ⟨m, a, o⟩ := trip
      rw [hg] at hout
      simp only [Option.some_inj] at hout
      simp [← hout]
  · intro m a o e out hg he hf hout
    rw [hguard] at hout
    unfold validate_against_previous_version_body at hout
    rw [hg] at hout
    simp only [Option.some_inj] at hout
    rw [← hout]
    simp only []
    have hdec : decide (∀ x ∈ m, validate_modified_file env self true x =
        true) = false := by
      apply decide_eq_false
      intro hall
      rw [hall e he] at hf
      simp at hf
    simp [validate_modified_files, hdec]

/-- Witness for C2: a previous-version diff with one structurally invalid
integration yml; in no-error mode the verdict is restored, without it the
verdict ends false. -/
theorem validate_against_previous_version_no_error_witness :
    selfPrevFail.is_valid = selfPrevFail.is_valid ∧
      ({ selfPrevFail with is_valid := false } : FilesValidator).is_valid =
        false :=
  ⟨(validate_against_previous_version_no_error envPrevFail selfPrevFail
      (by decide) (by decide)).1 selfPrevFail (by decide),
   (validate_against_previous_version_no_error envPrevFail selfPrevFail
      (by decide) (by decide)).2
     {PathEntry.single "Integrations/int.yml"} ∅ ∅
     (PathEntry.single "Integrations/int.yml")
     { selfPrevFail with is_valid := false }
     (by decide) (by decide) (by decide) (by decide)⟩

/-- C9: with the id-set check enabled, one modified-file iteration reduces
to the structure check conjoined with the id-set membership check; the
content-type dispatch chain (image, description, integration validity,
backward compatibility, script, incident field) is the `elif` arm of the
id-set branch and therefore never contributes. -/
theorem validate_modified_file_id_set_only (env : Env)
    (self : FilesValidator) (valid : Bool) (entry : PathEntry)
    (h : self.validate_id_set = true) :
    validate_modified_file env self valid entry =
      if env.checked_type (entryPath entry) then
        valid &&
          env.structure_is_file_valid (entryPath entry) self.use_git
            (decide (self.branch_name ≠ "" ∧
              ¬ (False ∨ self.is_backward_check = true)))
            (decide (self.branch_name ≠ "" ∧
              (entryOldPath entry).isSome = true)) &&
          env.id_set_is_file_valid_in_set (entryPath entry)
      else valid := by
  unfold validate_modified_file
  simp only [h]
  cases hct : env.checked_type (entryPath entry) <;>
    cases hs : env.structure_is_file_valid (entryPath entry) self.use_git
      (decide (self.branch_name ≠ "" ∧
        ¬ (False ∨ self.is_backward_check = true)))
      (decide (self.branch_name ≠ "" ∧ (entryOldPath entry).isSome = true)) <;>
    cases hid : env.id_set_is_file_valid_in_set (entryPath entry) <;>
      simp [hct, hs, hid]

/-- Witness for C9: a checked path under the id-set mode evaluates to the
two-check conjunction. -/
theorem validate_modified_file_id_set_only_witness :
    validate_modified_file envChecked selfIdSet true
        (PathEntry.single "Integrations/int.yml") =
      if envChecked.checked_type
          (entryPath (PathEntry.single "Integrations/int.yml")) then
        true &&
          envChecked.structure_is_file_valid
            (entryPath (PathEntry.single "Integrations/int.yml"))
            selfIdSet.use_git
            (decide (selfIdSet.branch_name ≠ "" ∧
              ¬ (False ∨ selfIdSet.is_backward_check = true)))
            (decide (selfIdSet.branch_name ≠ "" ∧
              (entryOldPath (PathEntry.single "Integrations/int.yml")).isSome =
                true)) &&
          envChecked.id_set_is_file_valid_in_set
            (entryPath (PathEntry.single "Integrations/int.yml"))
      else true :=
  validate_modified_file_id_set_only envChecked selfIdSet true
    (PathEntry.single "Integrations/int.yml") (by decide)

/-- C1: in non-CI mode, `get_modified_and_added_files` returns exactly the
reconciled sets: old-format is the union of the tag-vs-branch and
working-tree old-format sets; modified is the tag-vs-branch modified set
unioned with the intersection of the direct-tag and working-tree modified
sets, minus the working-tree deleted paths; added is the tag-vs-branch added
set unioned with the intersection of the direct-tag and working-tree added
sets, minus the working-tree modified paths and minus the working-tree
deleted paths.  In particular a path that is working-tree deleted and
tag-vs-branch modified is absent from the final modified set. -/
theorem get_modified_and_added_files_reconciliation (env : Env)
    (self : FilesValidator) (tag : String) (A NC T : FourSets)
    (hcirc : self.is_circle = false)
    (hA : get_modified_files env (env.run_command (diffBranchCmd self tag))
      tag self.print_ignored_files = some A)
    (hNC : get_modified_files env (env.run_command headDiffCmd) "master"
      self.print_ignored_files = some NC)
    (hT : get_modified_files env (env.run_command (diffTagCmd tag)) "master"
      self.print_ignored_files = some T) :
    get_modified_and_added_files env self tag =
      some ((A.modified ∪ (T.modified ∩ NC.modified)) \
          Finset.image PathEntry.single NC.deleted,
        ((A.added ∪ (T.added ∩ NC.added)) \ singlePaths NC.modified) \
          NC.deleted,
        A.old_format ∪ NC.old_format) ∧
    (∀ p, p ∈ NC.deleted → PathEntry.single p ∈ A.modified →
      PathEntry.single p ∉
        (A.modified ∪ (T.modified ∩ NC.modified)) \
          Finset.image PathEntry.single NC.deleted) := by
  constructor
  · unfold get_modified_and_added_files
    rw [hA, hcirc, hNC, hT]
    simp
  · intro p hdel _
    intro hmem
    obtain ⟨-, hnotim⟩ := Finset.mem_sdiff.mp hmem
    exact hnotim (Finset.mem_image_of_mem PathEntry.single hdel)

/-- Witness for C1: `Integrations/y.yml` is modified relative to the tag but
deleted in the working tree, so it is reconciled out of the final modified
set. -/
theorem get_modified_and_added_files_reconciliation_witness :
    PathEntry.single "Integrations/y.yml" ∉
      (reconA.modified ∪ (reconT.modified ∩ reconNC.modified)) \
        Finset.image PathEntry.single reconNC.deleted :=
  (get_modified_and_added_files_reconciliation envRecon baseSelf
      "origin/master" reconA reconNC reconT rfl (by decide) (by decide)
      (by decide)).2
    "Integrations/y.yml" (by decide) (by decide)

/-- C3: `validate_committed_files` escalates to the full-repository sweep
exactly when some collected modified entry matches the schema pattern, and
otherwise runs the changeset path — modified files, then added files, then
the old-format gate, in that order — and not the full sweep. -/
theorem validate_committed_files_schema_dispatch (env : Env)
    (self : FilesValidator) (m : Finset PathEntry) (a o : Finset String)
    (hm : get_modified_and_added_files env self "origin/master" =
      some (m, a, o)) :
    ((∃ f ∈ m, env.schema_file (entryPath f) = true) →
      validate_committed_files env self =
        some (validate_all_files env self, [SweepEvent.allFiles])) ∧
    ((¬ ∃ f ∈ m, env.schema_file (entryPath f) = true) →
      validate_committed_files env self =
        let s1 : FilesValidator :=
          { self with is_valid := validate_modified_files env self m }
        let s2 : FilesValidator :=
          { s1 with is_valid := validate_added_files env s1 a }
        some (validate_no_old_format env s2 o,
          [SweepEvent.modifiedFiles, SweepEvent.addedFiles,
            SweepEvent.oldFormatFiles])) := by
  unfold validate_committed_files
  rw [hm]
  simp only []
  constructor
  · intro hex
    rw [if_pos (decide_eq_true hex)]
  · intro hnex
    rw [if_neg (by simp [decide_eq_false hnex])]

/-- Witness for C3: a schema-file record in the diff escalates to the full
sweep. -/
theorem validate_committed_files_schema_dispatch_witness :
    validate_committed_files envSchema baseSelf =
      some (validate_all_files envSchema baseSelf, [SweepEvent.allFiles]) :=
  (validate_committed_files_schema_dispatch envSchema baseSelf
      {PathEntry.single "Tests/schemas/integration.yml"} ∅ ∅ (by decide)).1
    (by decide)

/-- The classification cascade at a (normalised) rename status: old-format
shunt, else the rename arm (single entry for a code-file rename, pair entry
otherwise), else the schema arm. -/
theorem classifyDispatch_r (env : Env) (fp d1 d2 : String) :
    classifyDispatch env "r" fp d1 d2 =
      (if env.old_yml_format fp = true ∧ isPyScriptOrIntegration env fp = true
       then .addOldFormat fp
       else if env.checked_type fp = true then
         (if env.code_file d2 = true then
           LineDelta.addModified (.single fp)
         else .addModified (.renamed d1 d2))
       else if env.schema_file fp = true then .addModified (.single fp)
       else .skip) := by
  unfold classifyDispatch
  simp only [show strToLower "r" = "r" from rfl,
    eq_false (show ¬ ("r" : String) = "m" by decide),
    eq_false (show ¬ ("r" : String) = "a" by decide),
    eq_false (show ¬ ("r" : String) = "d" by decide),
    eq_true (show ("r" : String) = "r" from rfl),
    eq_true (show strStartsWith "r" "r" = true from rfl),
    false_or, or_true, true_and, false_and, and_true, if_false, if_true,
    ite_false, ite_true]

/-- The classification cascade at status `m`. -/
theorem classifyDispatch_m (env : Env) (fp d1 d2 : String) :
    classifyDispatch env "m" fp d1 d2 =
      (if env.old_yml_format fp = true ∧ isPyScriptOrIntegration env fp = true
       then .addOldFormat fp
       else if env.checked_type fp = true ∧ ¬ strStartsWith fp "." = true then
         .addModified (.single fp)
       else if env.schema_file fp = true then .addModified (.single fp)
       else .skip) := by
  unfold classifyDispatch
  simp only [show strToLower "m" = "m" from rfl,
    eq_true (show ("m" : String) = "m" from rfl),
    eq_false (show ¬ ("m" : String) = "a" by decide),
    eq_false (show ¬ ("m" : String) = "d" by decide),
    eq_false (show ¬ ("m" : String) = "r" by decide),
    eq_false (show ¬ strStartsWith "m" "r" = true by decide),
    false_or, or_false, true_or, or_true, true_and, false_and, and_true,
    if_false, if_true, ite_false, ite_true]

/-- The classification cascade at status `a`. -/
theorem classifyDispatch_a (env : Env) (fp d1 d2 : String) :
    classifyDispatch env "a" fp d1 d2 =
      (if env.old_yml_format fp = true ∧ isPyScriptOrIntegration env fp = true
       then .addOldFormat fp
       else if env.checked_type fp = true ∧ ¬ strStartsWith fp "." = true then
         .addAdded fp
       else if env.schema_file fp = true then .addModified (.single fp)
       else .skip) := by
  unfold classifyDispatch
  simp only [show strToLower "a" = "a" from rfl,
    eq_true (show ("a" : String) = "a" from rfl),
    eq_false (show ¬ ("a" : String) = "m" by decide),
    eq_false (show ¬ ("a" : String) = "d" by decide),
    eq_false (show ¬ ("a" : String) = "r" by decide),
    eq_false (show ¬ strStartsWith "a" "r" = true by decide),
    false_or, or_false, true_or, or_true, true_and, false_and, and_true,
    if_false, if_true, ite_false, ite_true]

/-- The classification cascade at status `d`: the old-format shunt excludes
deletions, so a deletion goes to the deleted set (or the schema arm). -/
theorem classifyDispatch_d (env : Env) (fp d1 d2 : String) :
    classifyDispatch env "d" fp d1 d2 =
      (if env.checked_type fp = true ∧ ¬ strStartsWith fp "." = true then
        LineDelta.addDeleted fp
       else if env.schema_file fp = true then .addModified (.single fp)
       else .skip) := by
  unfold classifyDispatch
  simp only [show strToLower "d" = "d" from rfl,
    eq_true (show ("d" : String) = "d" from rfl),
    eq_false (show ¬ ("d" : String) = "m" by decide),
    eq_false (show ¬ ("d" : String) = "a" by decide),
    eq_false (show ¬ ("d" : String) = "r" by decide),
    eq_false (show ¬ strStartsWith "d" "r" = true by decide),
    false_or, or_false, or_self, true_and, false_and, and_true,
    if_false, if_true, ite_false, ite_true]

/-- C5: a rename record whose new path is a non-test code file never yields
a renamed-pair entry, and — provided the rewritten sibling yml is
content-typed and not intercepted by the old-format shunt (true of the real
pattern constants, which are opaque here) — yields exactly the single
modified entry for the sibling yml obtained by replacing the code file's
extension with `.yml`. -/
theorem classify_rename_code_file (env : Env)
    (file_status data1 data2 : String)
    (hr : strStartsWith (strToLower file_status) "r" = true)
    (hcode : env.code_file data2 = true)
    (htest : strEndsWith data2 "_test.py" = false) :
    (∀ a b, classifyTokens env [file_status, data1, data2] ≠
      some (.addModified (.renamed a b))) ∧
    (env.checked_type (splitextRoot data2 ++ ".yml") = true →
      (env.old_yml_format (splitextRoot data2 ++ ".yml") &&
        isPyScriptOrIntegration env (splitextRoot data2 ++ ".yml")) = false →
      classifyTokens env [file_status, data1, data2] =
        some (.addModified (.single (splitextRoot data2 ++ ".yml")))) := by
  have hcore : classifyTokens env [file_status, data1, data2] =
      some (classifyDispatch env "r" (splitextRoot data2 ++ ".yml")
        data1 data2) := by
    unfold classifyTokens
    simp only [List.get?]
    rw [if_pos hr]
    unfold classifyCore
    rw [if_pos ⟨hcode, by decide, by simp [htest]⟩]
  constructor
  · intro a b
    rw [hcore, classifyDispatch_r]
    intro hcontra
    rw [Option.some_inj] at hcontra
    revert hcontra
    repeat' split
    all_goals simp_all
  · intro hchk hnold
    rw [hcore, classifyDispatch_r]
    have hn : ¬ (env.old_yml_format (splitextRoot data2 ++ ".yml") = true ∧
        isPyScriptOrIntegration env (splitextRoot data2 ++ ".yml") = true) := by
      intro hc
      rw [hc.1, hc.2] at hnold
      simp at hnold
    rw [if_neg hn, if_pos hchk, if_pos hcode]

/-- Witness for C5: renaming a code file onto
`Integrations/foo/foo.py` classifies as the single modified entry
`Integrations/foo/foo.yml`. -/
theorem classify_rename_code_file_witness :
    classifyTokens envRename
        ["R100", "Integrations/foo/old_foo.py", "Integrations/foo/foo.py"] =
      some (.addModified (.single "Integrations/foo/foo.yml")) :=
  (classify_rename_code_file envRename "R100" "Integrations/foo/old_foo.py"
      "Integrations/foo/foo.py" (by decide) (by decide) (by decide)).2
    (by decide) (by decide)

/-- Every delta the cascade emits carries its branch guard, provided the
rename arm is safe: either the working path equals `file_data[2]`, or the
record is a code-file rename (so the pair branch cannot fire), or the status
is not a rename (so the rename arm cannot fire). -/
theorem classifyDispatch_guard (env : Env) (st0 fp d1 d2 : String)
    (hsafe : fp = d2 ∨ env.code_file d2 = true ∨
      strStartsWith (strToLower st0) "r" = false) :
    DeltaGuard env (classifyDispatch env st0 fp d1 d2) := by
  unfold classifyDispatch
  simp only []
  split
  · next h => exact h.2.1
  · split
    · next h => exact Or.inl ⟨h.2.1, by simpa using h.2.2⟩
    · split
      · next h => exact ⟨h.2.1, by simpa using h.2.2⟩
      · split
        · next h => exact ⟨h.2.1, by simpa using h.2.2⟩
        · split
          · next h =>
            split
            · exact Or.inr (Or.inl h.2)
            · next hnc =>
              rcases hsafe with h1 | h1 | h1
              · exact h1 ▸ h.2
              · exact absurd h1 hnc
              · exact absurd h.1 (by simp [h1])
          · split
            · next h => exact Or.inr (Or.inr h)
            · trivial

/-- The guard property for one normalisation-plus-cascade step.  For a
rename record the working path is `file_data[2]` itself; otherwise the
status does not start with `r`. -/
theorem classifyCore_guard (env : Env) (st0 fp d1 d2 : String)
    (hsafe : fp = d2 ∨ strStartsWith (strToLower st0) "r" = false) :
    DeltaGuard env (classifyCore env st0 fp d1 d2) := by
  unfold classifyCore
  split
  · next h =>
    apply classifyDispatch_guard
    rcases hsafe with h1 | h1
    · exact Or.inr (Or.inl (h1 ▸ h.1))
    · exact Or.inr (Or.inr h1)
  · split
    · trivial
    · apply classifyDispatch_guard
      rcases hsafe with h1 | h1
      · exact Or.inl h1
      · exact Or.inr (Or.inr h1)

/-- Every delta produced by classifying a token list carries its branch
guard. -/
theorem classifyTokens_guard (env : Env) (toks : List String) (d : LineDelta)
    (h : classifyTokens env toks = some d) : DeltaGuard env d := by
  cases toks with
  | nil =>
    unfold classifyTokens at h
    rw [Option.some_inj] at h
    rw [← h]
    trivial
  | cons fs rest =>
    unfold classifyTokens at h
    simp only [] at h
    cases h0 : rest.get? 0 with
    | none => rw [h0] at h; exact absurd h (by simp)
    | some p1 =>
      rw [h0] at h
      simp only [] at h
      split at h
      · next hr =>
        cases h1 : rest.get? 1 with
        | none => rw [h1] at h; exact absurd h (by simp)
        | some p2 =>
          rw [h1] at h
          rw [Option.some_inj] at h
          rw [← h]
          exact classifyCore_guard env "r" p2 p1 p2 (Or.inl rfl)
      · next hnr =>
        rw [Option.some_inj] at h
        rw [← h]
        exact classifyCore_guard env fs p1 p1 p1 (Or.inr (by simpa using hnr))

/-- Lemma: `processLines` agrees with collecting the deltas first and folding them
afterwards. -/
theorem processLines_eq_lineDeltas (env : Env) (lines : List String)
    (sets0 : FourSets) :
    processLines env lines sets0 =
      (lineDeltas env lines).map (fun ds => ds.foldl applyDelta sets0) := by
  induction lines generalizing sets0 with
  | nil => rfl
  | cons line rest ih =>
    unfold processLines lineDeltas
    cases hc : classifyTokens env (pySplit line) with
    | none => rfl
    | some d =>
      simp only []
      rw [ih (applyDelta sets0 d)]
      cases hld : lineDeltas env rest with
      | none => rfl
      | some ds => simp [List.foldl_cons]

/-- Each collected delta comes from classifying some line. -/
theorem lineDeltas_mem (env : Env) (lines : List String)
    (ds : List LineDelta) (h : lineDeltas env lines = some ds) :
    ∀ d ∈ ds, ∃ line ∈ lines, classifyTokens env (pySplit line) = some d := by
  induction lines generalizing ds with
  | nil =>
    unfold lineDeltas at h
    rw [Option.some_inj] at h
    rw [← h]
    intro d hd
    exact absurd hd (by simp)
  | cons line rest ih =>
    unfold lineDeltas at h
    cases hc : classifyTokens env (pySplit line) with
    | none => rw [hc] at h; exact Option.noConfusion h
    | some d0 =>
      rw [hc] at h
      cases hld : lineDeltas env rest with
      | none => rw [hld] at h; exact Option.noConfusion h
      | some ds0 =>
        rw [hld] at h
        rw [Option.some_inj] at h
        rw [← h]
        intro d hd
        rcases List.mem_cons.mp hd with h1 | h1
        · exact ⟨line, List.mem_cons_self .., h1 ▸ hc⟩
        · obtain ⟨l, hl, hcl⟩ := ih ds0 hld d h1
          exact ⟨l, List.mem_cons_of_mem _ hl, hcl⟩

/-- With dot-free pattern constants, a guarded delta never inserts a hidden
path. -/
theorem deltaGuard_noDot (env : Env) (hdot : DotFreePatterns env)
    (d : LineDelta) (hg : DeltaGuard env d) : DeltaNoDot d := by
  cases d with
  | skip => trivial
  | addModified e =>
    cases e with
    | single p =>
      by_cases hp : strStartsWith p "." = true
      · rcases hg with h | h | h
        · exact h.2
        · exact absurd h (by simp [(hdot p hp).1])
        · exact absurd h (by simp [(hdot p hp).2.2])
      · simpa using hp
    | renamed o n =>
      by_cases hp : strStartsWith n "." = true
      · exact absurd hg (by simp [DeltaGuard, (hdot n hp).1])
      · simpa [entryPath] using hp
  | addAdded p => exact hg.2
  | addDeleted p => exact hg.2
  | addOldFormat p =>
    by_cases hp : strStartsWith p "." = true
    · exact absurd hg (by simp [DeltaGuard, (hdot p hp).2.1])
    · simpa using hp

/-- Folding dot-free deltas preserves dot-freeness of the four sets. -/
theorem foldl_noDot (ds : List LineDelta) (sets : FourSets)
    (hsets : SetsNoDot sets) (hds : ∀ d ∈ ds, DeltaNoDot d) :
    SetsNoDot (ds.foldl applyDelta sets) := by
  induction ds generalizing sets with
  | nil => exact hsets
  | cons d rest ih =>
    rw [List.foldl_cons]
    apply ih
    · have hd := hds d (List.mem_cons_self ..)
      obtain ⟨h1, h2, h3, h4⟩ := hsets
      cases d with
      | skip => exact ⟨h1, h2, h3, h4⟩
      | addModified e =>
        refine ⟨?_, h2, h3, h4⟩
        intro x hx
        rcases Finset.mem_insert.mp hx with hx | hx
        · exact hx ▸ hd
        · exact h1 x hx
      | addAdded p =>
        refine ⟨h1, ?_, h3, h4⟩
        intro x hx
        rcases Finset.mem_insert.mp hx with hx | hx
        · exact hx ▸ hd
        · exact h2 x hx
      | addDeleted p =>
        refine ⟨h1, h2, ?_, h4⟩
        intro x hx
        rcases Finset.mem_insert.mp hx with hx | hx
        · exact hx ▸ hd
        · exact h3 x hx
      | addOldFormat p =>
        refine ⟨h1, h2, h3, ?_⟩
        intro x hx
        rcases Finset.mem_insert.mp hx with hx | hx
        · exact hx ▸ hd
        · exact h4 x hx
    · intro d' hd'
      exact hds d' (List.mem_cons_of_mem _ hd')

/-- C7: provided the pattern constants reject hidden (dot-initial) paths —
true of the anchored regex constants, which are opaque oracles here — no
file path beginning with `.` appears in any of the four sets returned by
`get_modified_files`, for every diff input string (for a renamed pair the
constrained path is the entry's new path; the rename-source component is not
itself an element of any set). -/
theorem get_modified_files_no_hidden (env : Env)
    (hdot : DotFreePatterns env) (files_string tag : String) (pif : Bool)
    (sets : FourSets)
    (h : get_modified_files env files_string tag pif = some sets) :
    SetsNoDot sets := by
  unfold get_modified_files at h
  cases hp : processLines env (splitLines files_string) FourSets.empty with
  | none => rw [hp] at h; exact Option.noConfusion h
  | some s =>
    rw [hp] at h
    simp only [filterPackagifyChanges, Option.some_inj] at h
    rw [processLines_eq_lineDeltas] at hp
    cases hld : lineDeltas env (splitLines files_string) with
    | none => rw [hld] at hp; exact Option.noConfusion hp
    | some ds =>
      rw [hld] at hp
      simp only [Option.map_some', Option.some_inj] at hp
      have hnodot : SetsNoDot (ds.foldl applyDelta FourSets.empty) := by
        apply foldl_noDot
        · refine ⟨?_, ?_, ?_, ?_⟩ <;> intro x hx <;>
            exact absurd hx (by simp [FourSets.empty])
        · intro d hd
          obtain ⟨line, -, hcl⟩ := lineDeltas_mem env _ ds hld d hd
          exact deltaGuard_noDot env hdot d (classifyTokens_guard env _ d hcl)
      rw [hp] at hnodot
      rw [← h]
      exact hnodot

/-- Witness for C7: a hidden added file is excluded while an ordinary
modified file is kept, and no set holds a hidden path. -/
theorem get_modified_files_no_hidden_witness :
    SetsNoDot ⟨{PathEntry.single "Integrations/x.yml"}, ∅, ∅, ∅⟩ :=
  get_modified_files_no_hidden envDotFree
    (fun p hp => ⟨by simp [envDotFree, baseEnv, hp], rfl, rfl⟩)
    "M Integrations/x.yml\nA .hidden.yml" "master" false
    ⟨{PathEntry.single "Integrations/x.yml"}, ∅, ∅, ∅⟩ (by decide)

/-- A delta that inserts no string path leaves path membership in the four
sets unchanged (a renamed pair is not a string element). -/
theorem pathInSets_applyDelta_none (sets : FourSets) (d : LineDelta)
    (hds : deltaStr d = none) (p : String) :
    pathInSets (applyDelta sets d) p ↔ pathInSets sets p := by
  cases d with
  | skip => exact Iff.rfl
  | addModified e =>
    cases e with
    | single q => exact absurd hds (by simp [deltaStr])
    | renamed a b =>
      simp [applyDelta, pathInSets, Finset.mem_insert]
  | addAdded q => exact absurd hds (by simp [deltaStr])
  | addDeleted q => exact absurd hds (by simp [deltaStr])
  | addOldFormat q => exact absurd hds (by simp [deltaStr])

/-- A delta that inserts the string path `q` extends path membership by
exactly `q`. -/
theorem pathInSets_applyDelta_some (sets : FourSets) (d : LineDelta)
    (q : String) (hds : deltaStr d = some q) (p : String) :
    pathInSets (applyDelta sets d) p ↔ p = q ∨ pathInSets sets p := by
  cases d with
  | skip => exact absurd hds (by simp [deltaStr])
  | addModified e =>
    cases e with
    | single r =>
      rw [show q = r from by simpa [deltaStr] using hds.symm]
      simp [applyDelta, pathInSets, Finset.mem_insert]
      tauto
    | renamed a b => exact absurd hds (by simp [deltaStr])
  | addAdded r =>
    rw [show q = r from by simpa [deltaStr] using hds.symm]
    simp [applyDelta, pathInSets, Finset.mem_insert]
    tauto
  | addDeleted r =>
    rw [show q = r from by simpa [deltaStr] using hds.symm]
    simp [applyDelta, pathInSets, Finset.mem_insert]
    tauto
  | addOldFormat r =>
    rw [show q = r from by simpa [deltaStr] using hds.symm]
    simp [applyDelta, pathInSets, Finset.mem_insert]
    tauto

/-- One insertion preserves pairwise disjointness as long as the inserted
path is not already present anywhere. -/
theorem applyDelta_disjoint (sets : FourSets) (d : LineDelta)
    (hdisj : SetsDisjoint sets)
    (hnew : ∀ q, deltaStr d = some q → ¬ pathInSets sets q) :
    SetsDisjoint (applyDelta sets d) := by
  cases d with
  | skip => exact hdisj
  | addModified e =>
    cases e with
    | single q =>
      have hq := hnew q rfl
      simp only [pathInSets, not_or] at hq
      obtain ⟨hq1, hq2, hq3, hq4⟩ := hq
      intro p
      obtain ⟨d1, d2, d3, d4, d5, d6⟩ := hdisj p
      simp only [applyDelta, Finset.mem_insert, PathEntry.single.injEq]
      refine ⟨?_, ?_, ?_, d4, d5, d6⟩
      · rintro ⟨hm | hm, hx⟩
        · exact hq2 (hm ▸ hx)
        · exact d1 ⟨hm, hx⟩
      · rintro ⟨hm | hm, hx⟩
        · exact hq3 (hm ▸ hx)
        · exact d2 ⟨hm, hx⟩
      · rintro ⟨hm | hm, hx⟩
        · exact hq4 (hm ▸ hx)
        · exact d3 ⟨hm, hx⟩
    | renamed a b =>
      intro p
      obtain ⟨d1, d2, d3, d4, d5, d6⟩ := hdisj p
      simp only [applyDelta, Finset.mem_insert]
      simp only [show (PathEntry.single p = PathEntry.renamed a b) = False from
        by simp, false_or]
      exact ⟨d1, d2, d3, d4, d5, d6⟩
  | addAdded q =>
    have hq := hnew q rfl
    simp only [pathInSets, not_or] at hq
    obtain ⟨hq1, hq2, hq3, hq4⟩ := hq
    intro p
    obtain ⟨d1, d2, d3, d4, d5, d6⟩ := hdisj p
    simp only [applyDelta, Finset.mem_insert]
    refine ⟨?_, d2, d3, ?_, ?_, d6⟩
    · rintro ⟨hm, hx | hx⟩
      · exact hq1 (hx ▸ hm)
      · exact d1 ⟨hm, hx⟩
    · rintro ⟨hx | hx, hy⟩
      · exact hq3 (hx ▸ hy)
      · exact d4 ⟨hx, hy⟩
    · rintro ⟨hx | hx, hy⟩
      · exact hq4 (hx ▸ hy)
      · exact d5 ⟨hx, hy⟩
  | addDeleted q =>
    have hq := hnew q rfl
    simp only [pathInSets, not_or] at hq
    obtain ⟨hq1, hq2, hq3, hq4⟩ := hq
    intro p
    obtain ⟨d1, d2, d3, d4, d5, d6⟩ := hdisj p
    simp only [applyDelta, Finset.mem_insert]
    refine ⟨d1, ?_, d3, ?_, d5, ?_⟩
    · rintro ⟨hm, hx | hx⟩
      · exact hq1 (hx ▸ hm)
      · exact d2 ⟨hm, hx⟩
    · rintro ⟨ha, hx | hx⟩
      · exact hq2 (hx ▸ ha)
      · exact d4 ⟨ha, hx⟩
    · rintro ⟨hx | hx, ho⟩
      · exact hq4 (hx ▸ ho)
      · exact d6 ⟨hx, ho⟩
  | addOldFormat q =>
    have hq := hnew q rfl
    simp only [pathInSets, not_or] at hq
    obtain ⟨hq1, hq2, hq3, hq4⟩ := hq
    intro p
    obtain ⟨d1, d2, d3, d4, d5, d6⟩ := hdisj p
    simp only [applyDelta, Finset.mem_insert]
    refine ⟨d1, d2, ?_, d4, ?_, ?_⟩
    · rintro ⟨hm, hx | hx⟩
      · exact hq1 (hx ▸ hm)
      · exact d3 ⟨hm, hx⟩
    · rintro ⟨ha, hx | hx⟩
      · exact hq2 (hx ▸ ha)
      · exact d5 ⟨ha, hx⟩
    · rintro ⟨hd', hx | hx⟩
      · exact hq3 (hx ▸ hd')
      · exact d6 ⟨hd', hx⟩

/-- Folding deltas whose string paths are pairwise distinct and fresh
preserves disjointness of the four sets. -/
theorem foldl_disjoint (ds : List LineDelta) (sets : FourSets)
    (hdisj : SetsDisjoint sets)
    (hnodup : (ds.filterMap deltaStr).Nodup)
    (hfresh : ∀ p, pathInSets sets p → p ∉ ds.filterMap deltaStr) :
    SetsDisjoint (ds.foldl applyDelta sets) := by
  induction ds generalizing sets with
  | nil => exact hdisj
  | cons d rest ih =>
    rw [List.foldl_cons]
    cases hds : deltaStr d with
    | none =>
      have hcons : (d :: rest).filterMap deltaStr =
          rest.filterMap deltaStr := by
        simp [List.filterMap_cons, hds]
      rw [hcons] at hnodup hfresh
      apply ih
      · exact applyDelta_disjoint sets d hdisj
          (fun q hq => absurd hq (by simp [hds]))
      · exact hnodup
      · intro p hp
        exact hfresh p ((pathInSets_applyDelta_none sets d hds p).mp hp)
    | some q =>
      have hcons : (d :: rest).filterMap deltaStr =
          q :: rest.filterMap deltaStr := by
        simp [List.filterMap_cons, hds]
      rw [hcons] at hnodup hfresh
      have hqnotin : q ∉ rest.filterMap deltaStr :=
        (List.nodup_cons.mp hnodup).1
      have hqfresh : ¬ pathInSets sets q :=
        fun hq => hfresh q hq (List.mem_cons_self ..)
      apply ih
      · refine applyDelta_disjoint sets d hdisj (fun q' hq' => ?_)
        rw [hds, Option.some_inj] at hq'
        exact hq' ▸ hqfresh
      · exact (List.nodup_cons.mp hnodup).2
      · intro p hp
        rcases (pathInSets_applyDelta_some sets d q hds p).mp hp with h1 | h1
        · exact h1 ▸ hqnotin
        · intro hmem
          exact hfresh p h1 (List.mem_cons_of_mem _ hmem)

/-- C8 (amended): the cascade assigns each record to at most one set; for
every diff input whose records classify to pairwise-distinct string paths,
the four returned sets are pairwise disjoint.  (The unamended claim fails
when two records carry the same path under different statuses; see the
counterexample.) -/
theorem get_modified_files_disjoint_of_distinct (env : Env)
    (files_string tag : String) (pif : Bool) (sets : FourSets)
    (ds : List LineDelta)
    (hld : lineDeltas env (splitLines files_string) = some ds)
    (hnodup : (ds.filterMap deltaStr).Nodup)
    (h : get_modified_files env files_string tag pif = some sets) :
    SetsDisjoint sets := by
  unfold get_modified_files at h
  cases hp : processLines env (splitLines files_string) FourSets.empty with
  | none => rw [hp] at h; exact Option.noConfusion h
  | some s =>
    rw [hp] at h
    simp only [filterPackagifyChanges, Option.some_inj] at h
    rw [processLines_eq_lineDeltas, hld] at hp
    simp only [Option.map_some', Option.some_inj] at hp
    have hdisj : SetsDisjoint (ds.foldl applyDelta FourSets.empty) := by
      apply foldl_disjoint
      · intro p
        simp [FourSets.empty]
      · exact hnodup
      · intro p hp'
        exact absurd hp' (by simp [pathInSets, FourSets.empty])
    rw [hp] at hdisj
    rw [← h]
    exact hdisj

/-- Counterexample for C8 as stated: a diff whose `M` record and `D` record
carry the same path yields that path in both the modified and the deleted
set of one `get_modified_files` call. -/
theorem get_modified_files_disjoint_counterexample :
    get_modified_files envClash clashInput "master" false =
      some ⟨{PathEntry.single "Integrations/x.yml"}, ∅,
        {"Integrations/x.yml"}, ∅⟩ ∧
    ¬ SetsDisjoint ⟨{PathEntry.single "Integrations/x.yml"}, ∅,
        {"Integrations/x.yml"}, ∅⟩ :=
  ⟨by decide,
   fun h => ((h "Integrations/x.yml").2.1) ⟨by decide, by decide⟩⟩

/-- Witness for C8 (amended): two records with distinct paths classify into
disjoint sets. -/
theorem get_modified_files_disjoint_of_distinct_witness :
    SetsDisjoint ⟨{PathEntry.single "Integrations/x.yml"},
      {"Integrations/y.yml"}, ∅, ∅⟩ :=
  get_modified_files_disjoint_of_distinct envClash
    "M Integrations/x.yml\nA Integrations/y.yml" "master" false
    ⟨{PathEntry.single "Integrations/x.yml"}, {"Integrations/y.yml"}, ∅, ∅⟩
    [.addModified (.single "Integrations/x.yml"),
      .addAdded "Integrations/y.yml"]
    (by decide) (by decide) (by decide)

/-- C6 (amended): the verdict accumulator is monotone at phase granularity —
every validation phase and the whole `is_valid_structure` run map a false
verdict to false and never raise it — but inside
`validate_against_previous_version(no_error=True)` the restore may move the
accumulator from false back to the saved pre-call value (see the
counterexample trace). -/
theorem is_valid_structure_phase_monotone (env : Env)
    (self : FilesValidator) :
    (∀ m, validate_modified_files env self m = true → self.is_valid = true) ∧
    (∀ a, validate_added_files env self a = true → self.is_valid = true) ∧
    (∀ o, (validate_no_old_format env self o).is_valid = true →
      self.is_valid = true) ∧
    ((validate_all_files env self).is_valid = true → self.is_valid = true) ∧
    (∀ out tr, validate_committed_files env self = some (out, tr) →
      out.is_valid = true → self.is_valid = true) ∧
    (∀ no_error out,
      validate_against_previous_version env self no_error = some out →
      out.is_valid = true → self.is_valid = true) ∧
    (∀ out, is_valid_structure env self = some out → out.is_valid = true →
      self.is_valid = true) :=
  ⟨fun m => validate_modified_files_mono env self m,
   fun a => validate_added_files_mono env self a,
   fun o => validate_no_old_format_mono env self o,
   validate_all_files_mono env self,
   fun out tr => validate_committed_files_mono env self out tr,
   fun ne out => validate_against_previous_version_mono env self ne out,
   fun out => is_valid_structure_mono env self out⟩

/-- Witness for C6 (amended): the monotonicity of the whole run at a
concrete passing configuration. -/
theorem is_valid_structure_phase_monotone_witness :
    baseSelf.is_valid = true :=
  (is_valid_structure_phase_monotone baseEnv baseSelf).2.2.2.2.2.2
    baseSelf (by decide) (by decide)

/-- Counterexample for C6 as stated: on branch `master` with a failing file
in the advisory previous-version diff, the accumulator trace of one
`is_valid_structure` run drops to false after the advisory validation loop
and is restored to true — a false-to-true transition inside one run. -/
theorem is_valid_structure_trace_counterexample :
    is_valid_structure_valid_trace envPrevFail selfMasterBranch =
      some [true, true, false, true, true] ∧
    noFalseToTrue [true, true, false, true, true] = false :=
  ⟨by decide, by decide⟩
